import Mathlib

set_option maxRecDepth 100000
set_option maxHeartbeats 2000000

/-!
Verification of the recipe HTML generator (`generate.py`).

The Python program consumes a structured recipe document (produced by an
external `cook` CLI as JSON) and renders static HTML.  We embed the pure
rendering core: quantity formatting (`get_quantity_str`), step rendering
(`render_step`), the per-recipe page builder (the pure part of
`generate_recipe_html`, which in Python also invokes the external parser;
that invocation is out of scope per the spec), and the index page builder
(`generate_index`).

Python dictionaries coming from the parser's JSON are embedded as
structures/inductives whose constructors follow exactly the branches the
code probes; Python `list[i]` indexing (which accepts negative indices and
raises `IndexError` out of range) is embedded as `pyIndex : List α → Int →
Option α`; a raised exception is `none` propagating through the `Option`
monad, mirroring the fact that in Python the exception aborts the whole
render with no partial output.

Python floats that reach the formatter are decimal literals from JSON; we
model such a payload as a scaled decimal `m / 10^e` (`PyNum.float m e`),
with `n.is_integer()` becoming `m % 10^e = 0` and `str(n)` becoming the
natural decimal rendering with trailing fractional zeros stripped (Python's
`repr` of a float round-trips the shortest decimal).
-/

namespace Recipes

/-! ## Decimal rendering of Python numbers -/

/-- Digits of a natural number, most significant first (fuel-based so that
it is kernel-computable; the fuel `n+1` always suffices). -/
def natToDigitsAux : Nat → Nat → List Char
  | 0, _ => []
  | fuel + 1, n =>
    if n < 10 then [Nat.digitChar n]
    else natToDigitsAux fuel (n / 10) ++ [Nat.digitChar (n % 10)]

def natToDigits (n : Nat) : List Char := natToDigitsAux (n + 1) n

/-- Python `str` of an `int`. -/
def pyStrInt (i : Int) : String :=
  String.mk ((if i < 0 then ['-'] else []) ++ natToDigits i.natAbs)

/-- Left-pad a digit list with `'0'` up to length `e`. -/
def padLeftZeros (l : List Char) (e : Nat) : List Char :=
  List.replicate (e - l.length) '0' ++ l

/-- Drop trailing `'0'` characters. -/
def stripTrailingZeros (l : List Char) : List Char :=
  (l.reverse.dropWhile (fun c => c = '0')).reverse

/-- Python `str(int(n)) if n.is_integer() else str(n)` for a float modelled
as the decimal `m / 10^e`. -/
def pyStrFloat (m : Int) (e : Nat) : String :=
  if m % ((10 : Int) ^ e) = 0 then pyStrInt (m / (10 : Int) ^ e)
  else
    String.mk ((if m < 0 then ['-'] else []) ++
      natToDigits (m.natAbs / 10 ^ e) ++
      '.' :: stripTrailingZeros (padLeftZeros (natToDigits (m.natAbs % 10 ^ e)) e))

/-! ## Data model (shapes of the parser's JSON that the code probes) -/

/-- A numeric JSON payload: Python `int` or `float` (the float as a decimal
`m / 10^e`). -/
inductive PyNum where
  | int (i : Int)
  | float (m : Int) (e : Nat)
deriving DecidableEq

/-- The `value` field of a `"number"`-typed quantity value: either the
number itself, or (`val.get("value", {})` being a dict) a one-level wrapper
carrying a `"value"` field, or a wrapper without that field (in which case
the code falls back to `""` and `str("")` is `""`). -/
inductive NumPayload where
  | raw (n : PyNum)
  | wrapped (n : PyNum)
  | wrappedMissing
deriving DecidableEq

/-- The `value` dict of a quantity: `{"type": "text"|"number", "value": …}`;
any other `type` string falls through to `return ""`.  A `"text"` entry with
a missing `"value"` key behaves as `text ""` (the code defaults to `""`). -/
inductive QtyValue where
  | text (s : String)
  | number (p : NumPayload)
  | otherType
deriving DecidableEq

/-- A quantity dict `{"value": …, "unit": …}`.  `value = none` covers a
missing/null/empty (falsy) `"value"` entry; `unit = none` covers a
missing/null `"unit"` (the code's `or ""` turns it into `""`). -/
structure Quantity where
  value : Option QtyValue
  unit : Option String
deriving DecidableEq

/-- An ingredient `{"name": …, "quantity": …}`; `quantity = none` covers a
missing (hence `{}`, falsy) quantity. -/
structure Ingredient where
  name : String
  quantity : Option Quantity
deriving DecidableEq

structure Cookware where
  name : String
deriving DecidableEq

structure Timer where
  quantity : Option Quantity
deriving DecidableEq

/-- One entry of a step's `items` list.  References carry a Python `int`
index (which may be negative).  `other` covers item types the code's
`if`/`elif` chain does not mention: they are silently skipped. -/
inductive StepItem where
  | text (v : String)
  | ingredientRef (index : Int)
  | cookwareRef (index : Int)
  | timerRef (index : Int)
  | other
deriving DecidableEq

structure Step where
  items : List StepItem
deriving DecidableEq

/-- One entry of a section's `content` list: a step, or other content
(skipped by the generator). -/
inductive Content where
  | step (s : Step)
  | other
deriving DecidableEq

structure RSection where
  content : List Content
deriving DecidableEq

/-- The parsed recipe document (the fields `generate_recipe_html` reads).
`title = none` covers a missing `metadata.map.title`. -/
structure RecipeDocument where
  title : Option String
  ingredients : List Ingredient
  cookware : List Cookware
  timers : List Timer
  sections : List RSection
deriving DecidableEq

/-! ## The quantity formatter (`get_quantity_str`) -/

def formatPyNum : PyNum → String
  | .int i => pyStrInt i
  | .float m e => pyStrFloat m e

def formatNumPayload : NumPayload → String
  | .raw n => formatPyNum n
  | .wrapped n => formatPyNum n
  | .wrappedMissing => ""

/-- `get_quantity_str(qty)` (lines 24–39). -/
def get_quantity_str (qty : Option Quantity) : String :=
  match qty with
  | none => ""
  | some q =>
    match q.value with
    | none => ""
    | some (.text s) => s
    | some (.number p) => formatNumPayload p
    | some .otherType => ""

/-- `qty.get("unit", "") or ""` applied to an optional quantity dict. -/
def getUnit (qty : Option Quantity) : String :=
  match qty with
  | none => ""
  | some q => q.unit.getD ""

/-! ## Step rendering (`render_step`) -/

/-- Python list indexing `xs[i]`: negative indices count from the end;
out-of-range raises `IndexError` (here: `none`). -/
def pyIndex {α : Type} (xs : List α) (i : Int) : Option α :=
  if i < 0 then
    if (xs.length : Int) + i < 0 then none else xs[((xs.length : Int) + i).toNat]?
  else xs[i.toNat]?

/-- The ingredient span of `render_step` (lines 49–53). -/
def ingredientFragment (ing : Ingredient) : String :=
  let qty := get_quantity_str ing.quantity
  let unit := getUnit ing.quantity
  let qty_str := if qty = "" then "" else " (" ++ qty ++ (if unit = "" then "" else " " ++ unit) ++ ")"
  "<span class=\"ingredient\">" ++ ing.name ++ qty_str ++ "</span>"

/-- The cookware span of `render_step` (lines 55–56). -/
def cookwareFragment (cw : Cookware) : String :=
  "<span class=\"cookware\">" ++ cw.name ++ "</span>"

/-- The timer span of `render_step` (lines 58–61). -/
def timerFragment (tm : Timer) : String :=
  "<span class=\"timer\">" ++ get_quantity_str tm.quantity ++ " " ++ getUnit tm.quantity ++ "</span>"

/-- The body of `render_step`'s `for item in step.get("items", [])` loop:
one `if`/`elif` dispatch, appending to `parts` (an unknown item type is
silently skipped — the chain has no `else`). -/
def partsFold (ingredients : List Ingredient) (cookware : List Cookware)
    (timers : List Timer) (parts : List String) (item : StepItem) : Option (List String) :=
  match item with
  | .text v => pure (parts ++ [v])
  | .ingredientRef index => do
    let ing ← pyIndex ingredients index
    pure (parts ++ [ingredientFragment ing])
  | .cookwareRef index => do
    let cw ← pyIndex cookware index
    pure (parts ++ [cookwareFragment cw])
  | .timerRef index => do
    let tm ← pyIndex timers index
    pure (parts ++ [timerFragment tm])
  | .other => pure parts

/-- `render_step(step, ingredients, cookware, timers)` (lines 42–62): the
`parts` accumulator loop then `"".join(parts)`, with a list lookup failure
aborting the whole call. -/
def render_step (step : Step) (ingredients : List Ingredient)
    (cookware : List Cookware) (timers : List Timer) : Option String := do
  let parts ← step.items.foldlM (partsFold ingredients cookware timers) []
  pure (String.join parts)

/-! ## Recipe page rendering (the pure part of `generate_recipe_html`) -/

/-- The `CSS` constant (lines 11–21). -/
def CSS : String := "\nbody \x7b font-family: system-ui, sans-serif; max-width: 700px; margin: 2rem auto; padding: 0 1rem; line-height: 1.6; \x7d\nh1 \x7b border-bottom: 2px solid #333; padding-bottom: 0.5rem; \x7d\nh2 \x7b color: #555; margin-top: 2rem; \x7d\nul, ol \x7b padding-left: 1.5rem; \x7d\nli \x7b margin: 0.5rem 0; \x7d\n.ingredient \x7b background: #fef3c7; padding: 0.1rem 0.3rem; border-radius: 3px; \x7d\n.cookware \x7b background: #dbeafe; padding: 0.1rem 0.3rem; border-radius: 3px; \x7d\n.timer \x7b background: #dcfce7; padding: 0.1rem 0.3rem; border-radius: 3px; \x7d\na \x7b color: #2563eb; \x7d\n"

/-- One `<li>` of the ingredients list (lines 83–87). -/
def ingredientListItem (ing : Ingredient) : String :=
  let qty := get_quantity_str ing.quantity
  let unit := getUnit ing.quantity
  let qty_str := if qty = "" then "" else ": " ++ qty ++ (if unit = "" then "" else " " ++ unit)
  "<li>" ++ ing.name ++ qty_str ++ "</li>"

/-- One `<li>` of the cookware list (line 90). -/
def cookwareListItem (cw : Cookware) : String :=
  "<li>" ++ cw.name ++ "</li>"

/-- The body of the `for item in section.get("content", [])` loop of the
step-collection pass (lines 95–98). -/
def stepFold (ingredients : List Ingredient) (cookware : List Cookware)
    (timers : List Timer) (acc : List String) (c : Content) : Option (List String) :=
  match c with
  | .step st => do
    let step_html ← render_step st ingredients cookware timers
    pure (acc ++ ["<li>" ++ step_html ++ "</li>"])
  | .other => pure acc

/-- The step-collection loop (lines 93–98): for each section, for each
content entry of type `"step"`, append `"<li>" + render_step(...) +
"</li>"`. -/
def buildStepItems (ingredients : List Ingredient) (cookware : List Cookware)
    (timers : List Timer) (sections : List RSection) : Option (List String) :=
  sections.foldlM (fun acc sec =>
    sec.content.foldlM (stepFold ingredients cookware timers) acc) []

/-- `f"<h2>Cookware</h2>\n<ul>\n{''.join(cw_items)}\n</ul>" if cw_items else ""`
(lines 100–102). -/
def cookwareSection (cw_items : List String) : String :=
  if cw_items.isEmpty then ""
  else "<h2>Cookware</h2>\n<ul>\n" ++ String.join cw_items ++ "\n</ul>"

/- The fixed pieces of the page template f-string (lines 104–125), split at
each interpolation site. -/

def pageA : String := "<!DOCTYPE html>\n<html lang=\"en\">\n<head>\n  <meta charset=\"UTF-8\">\n  <meta name=\"viewport\" content=\"width=device-width, initial-scale=1.0\">\n  <title>"

def pageB : String := "</title>\n  <style>"

def pageC : String := "</style>\n</head>\n<body>\n  <p><a href=\"index.html\">&larr; All recipes</a></p>\n  <h1>"

def pageD : String := "</h1>\n  <h2>Ingredients</h2>\n  <ul>\n"

def pageE : String := "\n  </ul>\n  "

def pageF : String := "\n  <h2>Steps</h2>\n  <ol>\n"

def pageG : String := "\n  </ol>\n</body>\n</html>"

/-- The page template f-string (lines 104–125). -/
def pageHtml (title : String) (ing_items : List String)
    (cookware_sec : String) (step_items : List String) : String :=
  pageA ++ title ++ pageB ++ CSS ++ pageC ++ title ++ pageD ++
    String.join ing_items ++ pageE ++ cookware_sec ++ pageF ++
    String.join step_items ++ pageG

/-- The pure core of `generate_recipe_html` (lines 75–125): everything after
the external parser call, with `fallbackTitle` standing for
`cook_file.stem`.  A lookup failure while rendering steps propagates and no
page is produced. -/
def generate_recipe_html (fallbackTitle : String) (doc : RecipeDocument) :
    Option String := do
  let title := doc.title.getD fallbackTitle
  let ing_items := doc.ingredients.map ingredientListItem
  let cw_items := doc.cookware.map cookwareListItem
  let step_items ← buildStepItems doc.ingredients doc.cookware doc.timers doc.sections
  pure (pageHtml title ing_items (cookwareSection cw_items) step_items)

/-! ## Index page rendering (`generate_index`) -/

/-- One `<li>` of the index (line 130); the pair is `(title, html)`. -/
def indexLink (p : String × String) : String :=
  "<li><a href=\"" ++ p.2 ++ "\">" ++ p.1 ++ "</a></li>"

def indexA : String := "<!DOCTYPE html>\n<html lang=\"en\">\n<head>\n  <meta charset=\"UTF-8\">\n  <meta name=\"viewport\" content=\"width=device-width, initial-scale=1.0\">\n  <title>Recipes</title>\n  <style>"

def indexB : String := "</style>\n</head>\n<body>\n  <h1>Recipes</h1>\n  <ul>\n"

def indexC : String := "\n  </ul>\n</body>\n</html>"

/-- `generate_index(recipes)` (lines 128–145). -/
def generate_index (recipes : List (String × String)) : String :=
  indexA ++ CSS ++ indexB ++ String.join (recipes.map indexLink) ++ indexC

/-! ## Declarative helpers used to state claims -/

/-- `mapM` over `Option`, written by plain recursion (first failure wins). -/
def optionMapM {α β : Type} (f : α → Option β) : List α → Option (List β)
  | [] => some []
  | a :: l => do
    let b ← f a
    let r ← optionMapM f l
    pure (b :: r)

def toStep : Content → Option Step
  | .step st => some st
  | .other => none

/-- All steps of a document's sections, in document order. -/
def collectSteps : List RSection → List Step
  | [] => []
  | sec :: rest => sec.content.filterMap toStep ++ collectSteps rest

/-- One rendered `<li>` of the steps list. -/
def renderStepLi (ingredients : List Ingredient) (cookware : List Cookware)
    (timers : List Timer) (st : Step) : Option String :=
  Option.map (fun h => "<li>" ++ h ++ "</li>") (render_step st ingredients cookware timers)

/-- Whether a step item references a list position at or beyond the end of
the corresponding flat list (indices are Python ints, so this is the
`i ≥ len` half of the out-of-range condition). -/
def outOfRange (doc : RecipeDocument) : StepItem → Prop
  | .ingredientRef i => (doc.ingredients.length : Int) ≤ i
  | .cookwareRef i => (doc.cookware.length : Int) ≤ i
  | .timerRef i => (doc.timers.length : Int) ≤ i
  | _ => False

/-! ## Substring occurrence counting (for the heading claim) -/

/-- Number of positions of `s` (end position included) at which `p` occurs
as a contiguous run. -/
def occs (p : List Char) : List Char → Nat
  | [] => if p <+: ([] : List Char) then 1 else 0
  | c :: s => (if p <+: c :: s then 1 else 0) + occs p s

/-- Occurrence count of the pattern `p` in the string `s`. -/
def occsS (p s : String) : Nat := occs p.data s.data

/-- The cookware heading pattern. -/
def hdgChars : List Char := "<h2>Cookware</h2>".data

/-- `X` cannot end in the middle of an occurrence of `p`: no nonempty
suffix of `X` shorter than `p` is a prefix of `p`.  When the left part of a
concatenation is span-free, occurrence counts split additively. -/
def SpanFree (p X : List Char) : Prop :=
  ∀ t, t <:+ X → t ≠ [] → t.length < p.length → ¬ t <+: p

/-- Boolean check implying `SpanFree` (used on concrete template pieces). -/
def spanFreeB (p X : List Char) : Bool :=
  X.tails.all (fun t => t.isEmpty || !(t.isPrefixOf p))

/-- `s` contains no occurrence of the cookware heading and cannot
contribute to one across concatenation boundaries. -/
def Good (s : List Char) : Prop := occs hdgChars s = 0 ∧ SpanFree hdgChars s

/-- Boolean check implying `Good` (used on concrete template pieces). -/
def goodB (s : String) : Bool :=
  (occs hdgChars s.data == 0) && spanFreeB hdgChars s.data

/-- `s` contains no `'<'` character (benign pre-safe text). -/
def ltFreeB (s : String) : Bool := s.data.all (fun c => !(c == '<'))

def qtyLtFreeB (q : Option Quantity) : Bool :=
  ltFreeB (get_quantity_str q) && ltFreeB (getUnit q)

def itemLtFreeB : StepItem → Bool
  | .text v => ltFreeB v
  | _ => true

def contentLtFreeB : Content → Bool
  | .step st => st.items.all itemLtFreeB
  | .other => true

def ingLtFreeB (ing : Ingredient) : Bool :=
  ltFreeB ing.name && qtyLtFreeB ing.quantity

/-- The benign-content assumption: every document-supplied string that is
spliced into the page (the resolved title, ingredient names and formatted
quantities/units, cookware names, timer quantities/units, and step text
fragments) is free of `'<'`.  The renderer performs no escaping and the
spec assumes the parser output pre-safe; the heading-counting claim is
stated under this assumption. -/
def docLtFreeB (fallback : String) (doc : RecipeDocument) : Bool :=
  ltFreeB (doc.title.getD fallback) &&
  doc.ingredients.all ingLtFreeB &&
  doc.cookware.all (fun cw => ltFreeB cw.name) &&
  doc.timers.all (fun tm => qtyLtFreeB tm.quantity) &&
  doc.sections.all (fun sec => sec.content.all contentLtFreeB)

/-! ## Concrete sample data for witnesses -/

/-- A quantity dict whose value is a number payload. -/
def numQty (p : NumPayload) (u : Option String) : Option Quantity :=
  some ⟨some (.number p), u⟩

/-- `@flour{2%cups}`: name `"flour"`, text quantity `"2"`, unit `"cups"`. -/
def flourIng : Ingredient := ⟨"flour", some ⟨some (.text "2"), some "cups"⟩⟩

/-- An ingredient with no quantity. -/
def saltIng : Ingredient := ⟨"salt", none⟩

/-- One ingredient, and a step referencing ingredient index 5 (out of range). -/
def badDoc : RecipeDocument :=
  ⟨none, [saltIng], [], [], [⟨[.step ⟨[.ingredientRef 5]⟩]⟩]⟩

/-- A document with exactly one cookware item. -/
def cwDoc : RecipeDocument := ⟨some "T", [], [⟨"pan"⟩], [], []⟩

/-- A document with no cookware. -/
def cwDocEmpty : RecipeDocument := ⟨some "T", [], [], [], []⟩

end Recipes

namespace Recipes

/-! ## Prefix/suffix toolbox -/

theorem prefix_append_left_iff {α : Type} {p A B : List α} (h : p.length ≤ A.length) :
    p <+: A ++ B ↔ p <+: A := by
  constructor
  · intro hp
    rw [List.prefix_iff_eq_take] at hp ⊢
    rwa [List.take_append_of_le_length h] at hp
  · intro hp
    exact hp.trans (List.prefix_append A B)

theorem prefix_short_of_prefix_append {α : Type} {p t Y : List α}
    (h : p <+: t ++ Y) (hlen : t.length ≤ p.length) : t <+: p := by
  rw [List.prefix_iff_eq_take] at h
  rw [List.prefix_iff_eq_take, h, List.take_take, Nat.min_eq_left hlen, List.take_left]

theorem suffix_append_cases {α : Type} {t A B : List α} (h : t <:+ A ++ B) :
    t <:+ B ∨ ∃ a, a <:+ A ∧ t = a ++ B := by
  have hlen : t.length ≤ (A ++ B).length := h.length_le
  rw [List.length_append] at hlen
  rcases le_or_lt t.length B.length with hle | hlt
  · left
    rw [List.suffix_iff_eq_drop] at h
    have he : (A ++ B).length - t.length = A.length + (B.length - t.length) := by
      rw [List.length_append]; omega
    rw [he, List.drop_append] at h
    rw [h]
    exact List.drop_suffix _ _
  · right
    rw [List.suffix_iff_eq_drop] at h
    have hle2 : (A ++ B).length - t.length ≤ A.length := by
      rw [List.length_append]; omega
    rw [List.drop_append_of_le_length hle2] at h
    exact ⟨_, List.drop_suffix _ _, h⟩

/-! ## Occurrence-count lemmas -/

theorem occs_nil {p : List Char} (hp : p ≠ []) : occs p [] = 0 := by
  simp [occs, List.prefix_nil, hp]

theorem occs_cons (p : List Char) (c : Char) (s : List Char) :
    occs p (c :: s) = (if p <+: c :: s then 1 else 0) + occs p s := rfl

theorem occs_append {p X Y : List Char} (hp : p ≠ []) (hX : SpanFree p X) :
    occs p (X ++ Y) = occs p X + occs p Y := by
  induction X with
  | nil => simp [occs_nil hp]
  | cons c X ih =>
    have hX2 : SpanFree p X := fun t ht hne hlen =>
      hX t (ht.trans (List.suffix_cons c X)) hne hlen
    have hbracket : (p <+: c :: (X ++ Y)) ↔ (p <+: c :: X) := by
      rcases le_or_lt p.length (c :: X).length with hle | hlt
      · exact prefix_append_left_iff (B := Y) hle
      · constructor
        · intro hpre
          exact absurd
            (prefix_short_of_prefix_append (t := c :: X) (Y := Y) hpre (Nat.le_of_lt hlt))
            (hX (c :: X) List.suffix_rfl (List.cons_ne_nil c X) hlt)
        · intro hpre
          exact absurd hpre.length_le (by omega)
    have : (c :: X) ++ Y = c :: (X ++ Y) := rfl
    rw [this, occs_cons, occs_cons, ih hX2]
    simp only [hbracket]
    omega

theorem occs_zero_of_not_mem {pc : Char} {p s : List Char} (hm : pc ∉ s) :
    occs (pc :: p) s = 0 := by
  induction s with
  | nil => exact occs_nil (List.cons_ne_nil pc p)
  | cons c s ih =>
    have h1 : ¬ (pc :: p <+: c :: s) := by
      intro h
      rcases List.cons_prefix_cons.1 h with ⟨he, _⟩
      exact hm (he ▸ List.mem_cons_self c s)
    rw [occs_cons, if_neg h1, ih (fun h2 => hm (List.mem_cons_of_mem c h2))]

/-! ## Span-freedom lemmas -/

theorem spanFree_nil (p : List Char) : SpanFree p [] := by
  intro t ht hne hlen hpre
  exact hne (List.suffix_nil.1 ht)

theorem spanFree_append {p A B : List Char} (hA : SpanFree p A) (hB : SpanFree p B) :
    SpanFree p (A ++ B) := by
  intro t ht hne hlen hpre
  rcases suffix_append_cases ht with h2 | ⟨a, ha, rfl⟩
  · exact hB t h2 hne hlen hpre
  · by_cases hae : a = []
    · subst hae
      exact hB B List.suffix_rfl (by simpa using hne) (by simpa using hlen) (by simpa using hpre)
    · have hap : a <+: p := (List.prefix_append a B).trans hpre
      have halen : a.length < p.length := by
        have : a.length ≤ (a ++ B).length := by rw [List.length_append]; omega
        omega
      exact hA a ha hae halen hap

theorem spanFree_of_not_mem {pc : Char} {p X : List Char} (hm : pc ∉ X) :
    SpanFree (pc :: p) X := by
  intro t ht hne hlen hpre
  cases t with
  | nil => exact hne rfl
  | cons c t =>
    rcases List.cons_prefix_cons.1 hpre with ⟨he, _⟩
    exact hm (he ▸ ht.subset (List.mem_cons_self c t))

theorem spanFree_of_spanFreeB {p X : List Char} (h : spanFreeB p X = true) :
    SpanFree p X := by
  intro t ht hne hlen hpre
  have hmem : t ∈ X.tails := (List.mem_tails t X).2 ht
  have h2 := List.all_eq_true.1 h t hmem
  simp only [List.isEmpty_iff, Bool.or_eq_true, List.isPrefixOf_iff_prefix] at h2
  rcases h2 with h2 | h2
  · exact hne h2
  · simp only [Bool.not_eq_true'] at h2
    have h3 : t.isPrefixOf p = true := List.isPrefixOf_iff_prefix.2 hpre
    rw [h2] at h3
    exact Bool.false_ne_true h3

/-! ## `Good` lemmas -/

theorem hdgChars_ne_nil : hdgChars ≠ [] := by decide

theorem hdgChars_eq : hdgChars = '<' :: "h2>Cookware</h2>".data := by decide

theorem good_nil : Good [] := ⟨occs_nil hdgChars_ne_nil, spanFree_nil _⟩

theorem good_append {a b : List Char} (ha : Good a) (hb : Good b) : Good (a ++ b) := by
  refine ⟨?_, spanFree_append ha.2 hb.2⟩
  rw [occs_append hdgChars_ne_nil ha.2, ha.1, hb.1]

theorem good_of_goodB {s : String} (h : goodB s = true) : Good s.data := by
  simp only [goodB, Bool.and_eq_true, beq_iff_eq] at h
  exact ⟨h.1, spanFree_of_spanFreeB h.2⟩

theorem not_mem_of_ltFreeB {s : String} (h : ltFreeB s = true) : '<' ∉ s.data := by
  intro hmem
  have h2 := List.all_eq_true.1 h _ hmem
  simp at h2

theorem good_of_ltFreeB {s : String} (h : ltFreeB s = true) : Good s.data := by
  have hm := not_mem_of_ltFreeB h
  rw [Good, hdgChars_eq]
  exact ⟨occs_zero_of_not_mem hm, spanFree_of_not_mem hm⟩

theorem good_ite {c : Prop} [Decidable c] {a b : String}
    (ha : Good a.data) (hb : Good b.data) : Good (if c then a else b).data := by
  by_cases h : c
  · rw [if_pos h]; exact ha
  · rw [if_neg h]; exact hb

theorem good_empty : Good ("" : String).data := good_nil

/-! ## `String.join` lemmas -/

theorem foldl_append_shift (l : List String) :
    ∀ a : String, l.foldl (fun r t => r ++ t) a = a ++ l.foldl (fun r t => r ++ t) "" := by
  induction l with
  | nil => intro a; simp [List.foldl]
  | cons s l ih =>
    intro a
    simp only [List.foldl]
    rw [ih (a ++ s), ih ("" ++ s), String.empty_append, String.append_assoc]

theorem join_cons (s : String) (l : List String) :
    String.join (s :: l) = s ++ String.join l := by
  show (s :: l).foldl (fun r t => r ++ t) "" = s ++ l.foldl (fun r t => r ++ t) ""
  simp only [List.foldl]
  rw [String.empty_append, foldl_append_shift l s]

theorem join_nil : String.join ([] : List String) = "" := rfl

theorem join_singleton (s : String) : String.join [s] = s := by
  rw [join_cons, join_nil, String.append_empty]

theorem good_join {l : List String} (h : ∀ s ∈ l, Good s.data) :
    Good (String.join l).data := by
  induction l with
  | nil => exact good_nil
  | cons s l ih =>
    rw [join_cons, String.data_append]
    exact good_append (h s (List.mem_cons_self s l))
      (ih fun t ht => h t (List.mem_cons_of_mem s ht))

/-! ## Python indexing lemmas -/

theorem pyIndex_mem {α : Type} {xs : List α} {i : Int} {x : α}
    (h : pyIndex xs i = some x) : x ∈ xs := by
  unfold pyIndex at h
  split at h
  · split at h
    · exact absurd h (by simp)
    · exact List.getElem?_mem h
  · exact List.getElem?_mem h

theorem pyIndex_none_of_ge {α : Type} {xs : List α} {i : Int}
    (h : (xs.length : Int) ≤ i) : pyIndex xs i = none := by
  unfold pyIndex
  rw [if_neg (by omega : ¬ i < 0)]
  exact List.getElem?_eq_none (by omega)

theorem pyIndex_neg {α : Type} {xs : List α} {k : Nat} (h1 : 1 ≤ k) (h2 : k ≤ xs.length) :
    pyIndex xs (-(k : Int)) = xs[xs.length - k]? := by
  unfold pyIndex
  rw [if_pos (by omega : -(k : Int) < 0)]
  rw [if_neg (by omega : ¬ (xs.length : Int) + -(k : Int) < 0)]
  have he : ((xs.length : Int) + -(k : Int)).toNat = xs.length - k := by omega
  rw [he]

/-! ## Fold lemmas for failure propagation -/

theorem foldlM_option_none {α β : Type} {f : β → α → Option β} {l : List α} {x : α}
    (hx : x ∈ l) (hf : ∀ b, f b x = none) : ∀ b, l.foldlM f b = none := by
  induction l with
  | nil => cases hx
  | cons a l ih =>
    intro b
    rw [List.foldlM_cons]
    rcases List.mem_cons.1 hx with rfl | hx2
    · rw [hf b]
      rfl
    · cases hfa : f b a with
      | none => rfl
      | some b2 => exact ih hx2 b2

theorem optionMapM_none {α β : Type} {f : α → Option β} {l : List α} {x : α}
    (hx : x ∈ l) (hf : f x = none) : optionMapM f l = none := by
  induction l with
  | nil => cases hx
  | cons a l ih =>
    rcases List.mem_cons.1 hx with rfl | hx2
    · show (f x).bind _ = none
      rw [hf]
      rfl
    · show (f a).bind _ = none
      cases hfa : f a with
      | none => rfl
      | some b =>
        show (optionMapM f l).bind _ = none
        rw [ih hx2]
        rfl

theorem optionMapM_mem {α β : Type} {f : α → Option β} {l : List α} {r : List β}
    (h : optionMapM f l = some r) : ∀ y ∈ r, ∃ x ∈ l, f x = some y := by
  induction l generalizing r with
  | nil =>
    cases h
    intro y hy
    cases hy
  | cons a l ih =>
    rw [optionMapM] at h
    cases hfa : f a with
    | none => rw [hfa] at h; cases h
    | some b =>
      rw [hfa] at h
      cases hrest : optionMapM f l with
      | none => rw [hrest] at h; cases h
      | some rl =>
        rw [hrest] at h
        have h2 : some (b :: rl) = some r := h
        injection h2 with h3
        subst h3
        intro y hy
        rcases List.mem_cons.1 hy with rfl | hy2
        · exact ⟨a, List.mem_cons_self a l, hfa⟩
        · rcases ih hrest y hy2 with ⟨x, hx, hfx⟩
          exact ⟨x, List.mem_cons_of_mem a hx, hfx⟩

/-! ## `render_step` structure lemmas -/

theorem render_step_singleton {ings : List Ingredient} {cw : List Cookware}
    {tms : List Timer} (item : StepItem) :
    render_step ⟨[item]⟩ ings cw tms =
      (partsFold ings cw tms [] item).map (fun parts => String.join parts) := by
  cases h : partsFold ings cw tms [] item with
  | none => simp [render_step, List.foldlM_cons, List.foldlM_nil, h]
  | some parts => simp [render_step, List.foldlM_cons, List.foldlM_nil, h]

theorem render_step_ingredientRef (ings : List Ingredient) (cw : List Cookware)
    (tms : List Timer) (i : Int) :
    render_step ⟨[.ingredientRef i]⟩ ings cw tms =
      (pyIndex ings i).map ingredientFragment := by
  rw [render_step_singleton]
  cases h : pyIndex ings i with
  | none => simp [partsFold, h]
  | some ing => simp [partsFold, h, join_singleton]

theorem render_step_cookwareRef (ings : List Ingredient) (cw : List Cookware)
    (tms : List Timer) (i : Int) :
    render_step ⟨[.cookwareRef i]⟩ ings cw tms =
      (pyIndex cw i).map cookwareFragment := by
  rw [render_step_singleton]
  cases h : pyIndex cw i with
  | none => simp [partsFold, h]
  | some c => simp [partsFold, h, join_singleton]

theorem render_step_timerRef (ings : List Ingredient) (cw : List Cookware)
    (tms : List Timer) (i : Int) :
    render_step ⟨[.timerRef i]⟩ ings cw tms =
      (pyIndex tms i).map timerFragment := by
  rw [render_step_singleton]
  cases h : pyIndex tms i with
  | none => simp [partsFold, h]
  | some tm => simp [partsFold, h, join_singleton]

theorem partsFold_none_of_outOfRange {doc : RecipeDocument} {item : StepItem}
    (h : outOfRange doc item) :
    ∀ parts, partsFold doc.ingredients doc.cookware doc.timers parts item = none := by
  intro parts
  cases item with
  | text v => cases h
  | ingredientRef i =>
    show (pyIndex doc.ingredients i).bind _ = none
    rw [pyIndex_none_of_ge h]
    rfl
  | cookwareRef i =>
    show (pyIndex doc.cookware i).bind _ = none
    rw [pyIndex_none_of_ge h]
    rfl
  | timerRef i =>
    show (pyIndex doc.timers i).bind _ = none
    rw [pyIndex_none_of_ge h]
    rfl
  | other => cases h

theorem render_step_none_of_outOfRange {doc : RecipeDocument} {st : Step}
    {item : StepItem} (hmem : item ∈ st.items) (h : outOfRange doc item) :
    render_step st doc.ingredients doc.cookware doc.timers = none := by
  rw [render_step]
  show (List.foldlM (partsFold doc.ingredients doc.cookware doc.timers) [] st.items).bind _ = none
  rw [foldlM_option_none hmem (partsFold_none_of_outOfRange h) []]
  rfl

/-! ## `buildStepItems` versus the declarative step scan -/

theorem stepFold_content_eq (ings : List Ingredient) (cw : List Cookware)
    (tms : List Timer) (content : List Content) :
    ∀ acc : List String,
      content.foldlM (stepFold ings cw tms) acc =
        (optionMapM (renderStepLi ings cw tms) (content.filterMap toStep)).map
          (fun r => acc ++ r) := by
  induction content with
  | nil =>
    intro acc
    rw [List.foldlM_nil]
    show some acc = some (acc ++ [])
    rw [List.append_nil]
  | cons c content ih =>
    intro acc
    cases c with
    | other =>
      rw [List.foldlM_cons]
      show (stepFold ings cw tms acc Content.other).bind _ = _
      rw [show stepFold ings cw tms acc Content.other = some acc from rfl]
      show content.foldlM _ acc = _
      rw [ih acc]
      rfl
    | step st =>
      rw [List.foldlM_cons]
      show (stepFold ings cw tms acc (Content.step st)).bind _ = _
      rw [show (Content.step st :: content).filterMap toStep =
        st :: content.filterMap toStep from rfl]
      cases hr : render_step st ings cw tms with
      | none =>
        rw [show stepFold ings cw tms acc (Content.step st) =
          (render_step st ings cw tms).bind
            (fun h => some (acc ++ ["<li>" ++ h ++ "</li>"])) from rfl, hr]
        rw [show optionMapM (renderStepLi ings cw tms) (st :: content.filterMap toStep) =
          (renderStepLi ings cw tms st).bind
            (fun b => (optionMapM (renderStepLi ings cw tms)
              (content.filterMap toStep)).bind (fun r => some (b :: r))) from rfl]
        rw [show renderStepLi ings cw tms st =
          (render_step st ings cw tms).map (fun h => "<li>" ++ h ++ "</li>") from rfl, hr]
        rfl
      | some html =>
        rw [show stepFold ings cw tms acc (Content.step st) =
          (render_step st ings cw tms).bind
            (fun h => some (acc ++ ["<li>" ++ h ++ "</li>"])) from rfl, hr]
        show content.foldlM _ (acc ++ ["<li>" ++ html ++ "</li>"]) = _
        rw [ih (acc ++ ["<li>" ++ html ++ "</li>"])]
        rw [show optionMapM (renderStepLi ings cw tms) (st :: content.filterMap toStep) =
          (renderStepLi ings cw tms st).bind
            (fun b => (optionMapM (renderStepLi ings cw tms)
              (content.filterMap toStep)).bind (fun r => some (b :: r))) from rfl]
        rw [show renderStepLi ings cw tms st =
          (render_step st ings cw tms).map (fun h => "<li>" ++ h ++ "</li>") from rfl, hr]
        cases hm : optionMapM (renderStepLi ings cw tms) (content.filterMap toStep) with
        | none => rfl
        | some r =>
          show some (acc ++ ["<li>" ++ html ++ "</li>"] ++ r) = some (acc ++ _)
          rw [List.append_assoc]
          rfl

theorem optionMapM_append {α β : Type} (f : α → Option β) (l1 l2 : List α) :
    optionMapM f (l1 ++ l2) =
      (optionMapM f l1).bind fun r1 =>
        (optionMapM f l2).map fun r2 => r1 ++ r2 := by
  induction l1 with
  | nil =>
    show optionMapM f l2 = (optionMapM f l2).map _
    cases h : optionMapM f l2 with
    | none => rfl
    | some r => rfl
  | cons a l1 ih =>
    show (f a).bind _ = ((f a).bind _).bind _
    cases hfa : f a with
    | none => rfl
    | some b =>
      show (optionMapM f (l1 ++ l2)).bind _ = ((optionMapM f l1).bind _).bind _
      rw [ih]
      cases h1 : optionMapM f l1 with
      | none => rfl
      | some r1 =>
        cases h2 : optionMapM f l2 with
        | none => rfl
        | some r2 => rfl

theorem buildStepItems_eq (ings : List Ingredient) (cw : List Cookware)
    (tms : List Timer) (sections : List RSection) :
    buildStepItems ings cw tms sections =
      optionMapM (renderStepLi ings cw tms) (collectSteps sections) := by
  rw [buildStepItems]
  have main : ∀ (secs : List RSection) (acc : List String),
      secs.foldlM (fun acc2 sec =>
          sec.content.foldlM (stepFold ings cw tms) acc2) acc =
        (optionMapM (renderStepLi ings cw tms) (collectSteps secs)).map
          (fun r => acc ++ r) := by
    intro secs
    induction secs with
    | nil =>
      intro acc
      simp [collectSteps, optionMapM]
    | cons sec secs ih =>
      intro acc
      rw [List.foldlM_cons]
      show (sec.content.foldlM (stepFold ings cw tms) acc).bind _ = _
      rw [stepFold_content_eq]
      rw [show collectSteps (sec :: secs) =
        sec.content.filterMap toStep ++ collectSteps secs from rfl]
      rw [optionMapM_append]
      cases h1 : optionMapM (renderStepLi ings cw tms) (sec.content.filterMap toStep) with
      | none => rfl
      | some r1 =>
        show secs.foldlM _ (acc ++ r1) = _
        rw [ih (acc ++ r1)]
        cases h2 : optionMapM (renderStepLi ings cw tms) (collectSteps secs) with
        | none => rfl
        | some r2 =>
          show some (acc ++ r1 ++ r2) = some (acc ++ (r1 ++ r2))
          rw [List.append_assoc]
  rw [main sections []]
  cases h : optionMapM (renderStepLi ings cw tms) (collectSteps sections) with
  | none => rfl
  | some r =>
    show some ([] ++ r) = some r
    rw [List.nil_append]

theorem mem_collectSteps {sections : List RSection} {sec : RSection} {st : Step}
    (hsec : sec ∈ sections) (hst : Content.step st ∈ sec.content) :
    st ∈ collectSteps sections := by
  induction sections with
  | nil => cases hsec
  | cons s sections ih =>
    rw [collectSteps]
    rcases List.mem_cons.1 hsec with rfl | hsec2
    · exact List.mem_append_left _ (List.mem_filterMap.2 ⟨Content.step st, hst, rfl⟩)
    · exact List.mem_append_right _ (ih hsec2)

theorem collectSteps_mem {sections : List RSection} {st : Step}
    (h : st ∈ collectSteps sections) :
    ∃ sec ∈ sections, Content.step st ∈ sec.content := by
  induction sections with
  | nil => cases h
  | cons s sections ih =>
    rw [collectSteps] at h
    rcases List.mem_append.1 h with h2 | h2
    · rcases List.mem_filterMap.1 h2 with ⟨c, hc, htc⟩
      cases c with
      | step st2 =>
        cases htc
        exact ⟨s, List.mem_cons_self s sections, hc⟩
      | other => cases htc
    · rcases ih h2 with ⟨sec, hsec, hmem⟩
      exact ⟨sec, List.mem_cons_of_mem s hsec, hmem⟩

/-! ## Goodness of the rendered pieces under the benign-content assumption -/

theorem good_str_append {a b : String} (ha : Good a.data) (hb : Good b.data) :
    Good (a ++ b).data := by
  rw [String.data_append]
  exact good_append ha hb

theorem good_ingredientFragment {ing : Ingredient} (h : ingLtFreeB ing = true) :
    Good (ingredientFragment ing).data := by
  simp only [ingLtFreeB, qtyLtFreeB, Bool.and_eq_true] at h
  obtain ⟨hn, hq, hu⟩ := h
  have gOpen : Good ("<span class=\"ingredient\">" : String).data := good_of_goodB (by decide)
  have gClose : Good ("</span>" : String).data := good_of_goodB (by decide)
  have gParen : Good (" (" : String).data := good_of_goodB (by decide)
  have gClParen : Good (")" : String).data := good_of_goodB (by decide)
  have gSpace : Good (" " : String).data := good_of_goodB (by decide)
  have hInner : Good ((if getUnit ing.quantity = "" then "" else
      " " ++ getUnit ing.quantity) : String).data :=
    good_ite good_empty (good_str_append gSpace (good_of_ltFreeB hu))
  have hQS : Good ((if get_quantity_str ing.quantity = "" then "" else
      " (" ++ get_quantity_str ing.quantity ++
        (if getUnit ing.quantity = "" then "" else " " ++ getUnit ing.quantity) ++ ")") : String).data :=
    good_ite good_empty (good_str_append
      (good_str_append (good_str_append gParen (good_of_ltFreeB hq)) hInner) gClParen)
  show Good (("<span class=\"ingredient\">" : String) ++ ing.name ++
    (if get_quantity_str ing.quantity = "" then "" else
      " (" ++ get_quantity_str ing.quantity ++
        (if getUnit ing.quantity = "" then "" else " " ++ getUnit ing.quantity) ++ ")") ++
    "</span>").data
  exact good_str_append
    (good_str_append (good_str_append gOpen (good_of_ltFreeB hn)) hQS) gClose

theorem good_cookwareFragment {cw : Cookware} (h : ltFreeB cw.name = true) :
    Good (cookwareFragment cw).data := by
  have gOpen : Good ("<span class=\"cookware\">" : String).data := good_of_goodB (by decide)
  have gClose : Good ("</span>" : String).data := good_of_goodB (by decide)
  show Good (("<span class=\"cookware\">" : String) ++ cw.name ++ "</span>").data
  exact good_str_append (good_str_append gOpen (good_of_ltFreeB h)) gClose

theorem good_timerFragment {tm : Timer} (h : qtyLtFreeB tm.quantity = true) :
    Good (timerFragment tm).data := by
  simp only [qtyLtFreeB, Bool.and_eq_true] at h
  obtain ⟨hq, hu⟩ := h
  have gOpen : Good ("<span class=\"timer\">" : String).data := good_of_goodB (by decide)
  have gClose : Good ("</span>" : String).data := good_of_goodB (by decide)
  have gSpace : Good (" " : String).data := good_of_goodB (by decide)
  show Good (("<span class=\"timer\">" : String) ++ get_quantity_str tm.quantity ++
    " " ++ getUnit tm.quantity ++ "</span>").data
  exact good_str_append (good_str_append (good_str_append
    (good_str_append gOpen (good_of_ltFreeB hq)) gSpace) (good_of_ltFreeB hu)) gClose

theorem good_ingredientListItem {ing : Ingredient} (h : ingLtFreeB ing = true) :
    Good (ingredientListItem ing).data := by
  simp only [ingLtFreeB, qtyLtFreeB, Bool.and_eq_true] at h
  obtain ⟨hn, hq, hu⟩ := h
  have gOpen : Good ("<li>" : String).data := good_of_goodB (by decide)
  have gClose : Good ("</li>" : String).data := good_of_goodB (by decide)
  have gColon : Good (": " : String).data := good_of_goodB (by decide)
  have gSpace : Good (" " : String).data := good_of_goodB (by decide)
  have hInner : Good ((if getUnit ing.quantity = "" then "" else
      " " ++ getUnit ing.quantity) : String).data :=
    good_ite good_empty (good_str_append gSpace (good_of_ltFreeB hu))
  have hQS : Good ((if get_quantity_str ing.quantity = "" then "" else
      ": " ++ get_quantity_str ing.quantity ++
        (if getUnit ing.quantity = "" then "" else " " ++ getUnit ing.quantity)) : String).data :=
    good_ite good_empty
      (good_str_append (good_str_append gColon (good_of_ltFreeB hq)) hInner)
  show Good (("<li>" : String) ++ ing.name ++
    (if get_quantity_str ing.quantity = "" then "" else
      ": " ++ get_quantity_str ing.quantity ++
        (if getUnit ing.quantity = "" then "" else " " ++ getUnit ing.quantity)) ++
    "</li>").data
  exact good_str_append
    (good_str_append (good_str_append gOpen (good_of_ltFreeB hn)) hQS) gClose

theorem good_cookwareListItem {cw : Cookware} (h : ltFreeB cw.name = true) :
    Good (cookwareListItem cw).data := by
  have gOpen : Good ("<li>" : String).data := good_of_goodB (by decide)
  have gClose : Good ("</li>" : String).data := good_of_goodB (by decide)
  show Good (("<li>" : String) ++ cw.name ++ "</li>").data
  exact good_str_append (good_str_append gOpen (good_of_ltFreeB h)) gClose

theorem partsFold_good {ings : List Ingredient} {cw : List Cookware} {tms : List Timer}
    {parts parts2 : List String} {it : StepItem}
    (hi : ∀ ing ∈ ings, ingLtFreeB ing = true)
    (hcw : ∀ c ∈ cw, ltFreeB c.name = true)
    (ht : ∀ tm ∈ tms, qtyLtFreeB tm.quantity = true)
    (hp : ∀ s ∈ parts, Good s.data)
    (hit : itemLtFreeB it = true)
    (h : partsFold ings cw tms parts it = some parts2) :
    ∀ s ∈ parts2, Good s.data := by
  cases it with
  | text v =>
    injection h with h2
    subst h2
    intro s hs
    rcases List.mem_append.1 hs with hs1 | hs2
    · exact hp s hs1
    · rw [List.mem_singleton.1 hs2]
      exact good_of_ltFreeB hit
  | ingredientRef i =>
    simp only [partsFold] at h
    cases hpi : pyIndex ings i with
    | none => rw [hpi] at h; cases h
    | some ing =>
      rw [hpi] at h
      have h2 : some (parts ++ [ingredientFragment ing]) = some parts2 := h
      injection h2 with h3
      subst h3
      intro s hs
      rcases List.mem_append.1 hs with hs1 | hs2
      · exact hp s hs1
      · rw [List.mem_singleton.1 hs2]
        exact good_ingredientFragment (hi ing (pyIndex_mem hpi))
  | cookwareRef i =>
    simp only [partsFold] at h
    cases hpi : pyIndex cw i with
    | none => rw [hpi] at h; cases h
    | some c =>
      rw [hpi] at h
      have h2 : some (parts ++ [cookwareFragment c]) = some parts2 := h
      injection h2 with h3
      subst h3
      intro s hs
      rcases List.mem_append.1 hs with hs1 | hs2
      · exact hp s hs1
      · rw [List.mem_singleton.1 hs2]
        exact good_cookwareFragment (hcw c (pyIndex_mem hpi))
  | timerRef i =>
    simp only [partsFold] at h
    cases hpi : pyIndex tms i with
    | none => rw [hpi] at h; cases h
    | some tm =>
      rw [hpi] at h
      have h2 : some (parts ++ [timerFragment tm]) = some parts2 := h
      injection h2 with h3
      subst h3
      intro s hs
      rcases List.mem_append.1 hs with hs1 | hs2
      · exact hp s hs1
      · rw [List.mem_singleton.1 hs2]
        exact good_timerFragment (ht tm (pyIndex_mem hpi))
  | other =>
    injection h with h2
    subst h2
    exact hp

theorem foldlM_parts_good {ings : List Ingredient} {cw : List Cookware} {tms : List Timer}
    (hi : ∀ ing ∈ ings, ingLtFreeB ing = true)
    (hcw : ∀ c ∈ cw, ltFreeB c.name = true)
    (ht : ∀ tm ∈ tms, qtyLtFreeB tm.quantity = true) :
    ∀ (items : List StepItem) (parts res : List String),
      (∀ s ∈ parts, Good s.data) →
      (∀ it ∈ items, itemLtFreeB it = true) →
      List.foldlM (partsFold ings cw tms) parts items = some res →
      ∀ s ∈ res, Good s.data := by
  intro items
  induction items with
  | nil =>
    intro parts res hp hit h
    rw [List.foldlM_nil] at h
    injection h with h2
    subst h2
    exact hp
  | cons it items ih =>
    intro parts res hp hit h
    rw [List.foldlM_cons] at h
    cases hpf : partsFold ings cw tms parts it with
    | none =>
      rw [hpf] at h
      cases h
    | some parts2 =>
      rw [hpf] at h
      have h2 : List.foldlM (partsFold ings cw tms) parts2 items = some res := h
      exact ih parts2 res
        (partsFold_good hi hcw ht hp (hit it (List.mem_cons_self it items)) hpf)
        (fun x hx => hit x (List.mem_cons_of_mem it hx)) h2

theorem render_step_good {st : Step} {ings : List Ingredient} {cw : List Cookware}
    {tms : List Timer} {html : String}
    (hi : ∀ ing ∈ ings, ingLtFreeB ing = true)
    (hcw : ∀ c ∈ cw, ltFreeB c.name = true)
    (ht : ∀ tm ∈ tms, qtyLtFreeB tm.quantity = true)
    (hitems : ∀ it ∈ st.items, itemLtFreeB it = true)
    (h : render_step st ings cw tms = some html) : Good html.data := by
  rw [render_step] at h
  cases hf : List.foldlM (partsFold ings cw tms) [] st.items with
  | none =>
    rw [hf] at h
    cases h
  | some parts =>
    rw [hf] at h
    have h2 : some (String.join parts) = some html := h
    injection h2 with h3
    subst h3
    exact good_join (foldlM_parts_good hi hcw ht st.items [] parts
      (fun s hs => absurd hs (List.not_mem_nil s)) hitems hf)

theorem buildStepItems_good {ings : List Ingredient} {cw : List Cookware}
    {tms : List Timer} {sections : List RSection} {items : List String}
    (hi : ∀ ing ∈ ings, ingLtFreeB ing = true)
    (hcw : ∀ c ∈ cw, ltFreeB c.name = true)
    (ht : ∀ tm ∈ tms, qtyLtFreeB tm.quantity = true)
    (hsec : ∀ sec ∈ sections, ∀ c ∈ sec.content, contentLtFreeB c = true)
    (h : buildStepItems ings cw tms sections = some items) :
    ∀ s ∈ items, Good s.data := by
  rw [buildStepItems_eq] at h
  intro s hs
  rcases optionMapM_mem h s hs with ⟨st, hst, hf⟩
  rcases collectSteps_mem hst with ⟨sec, hsec2, hcontent⟩
  have hitems : ∀ it ∈ st.items, itemLtFreeB it = true := by
    have h4 := hsec sec hsec2 _ hcontent
    exact List.all_eq_true.1 h4
  rw [renderStepLi] at hf
  cases hr : render_step st ings cw tms with
  | none => rw [hr] at hf; cases hf
  | some html =>
    rw [hr] at hf
    have h2 : some ("<li>" ++ html ++ "</li>") = some s := hf
    injection h2 with h3
    subst h3
    have gO : Good ("<li>" : String).data := good_of_goodB (by decide)
    have gC : Good ("</li>" : String).data := good_of_goodB (by decide)
    exact good_str_append (good_str_append gO (render_step_good hi hcw ht hitems hr)) gC

/-! ## Page-level occurrence computation -/

theorem occs_pageHtml {title cwsec : String} {ing_items step_items : List String}
    (ht : Good title.data)
    (hii : ∀ s ∈ ing_items, Good s.data)
    (hsi : ∀ s ∈ step_items, Good s.data)
    (hcw : SpanFree hdgChars cwsec.data) :
    occsS "<h2>Cookware</h2>" (pageHtml title ing_items cwsec step_items) =
      occs hdgChars cwsec.data := by
  have gA : Good pageA.data := good_of_goodB (by decide)
  have gB : Good pageB.data := good_of_goodB (by decide)
  have gCSS : Good CSS.data := good_of_ltFreeB (by decide)
  have gC : Good pageC.data := good_of_goodB (by decide)
  have gD : Good pageD.data := good_of_goodB (by decide)
  have gE : Good pageE.data := good_of_goodB (by decide)
  have gF : Good pageF.data := good_of_goodB (by decide)
  have gG : Good pageG.data := good_of_goodB (by decide)
  have hjoinI : Good (String.join ing_items).data := good_join hii
  have hjoinS : Good (String.join step_items).data := good_join hsi
  have s1 : SpanFree hdgChars (pageA.data ++ title.data) := spanFree_append gA.2 ht.2
  have s2 : SpanFree hdgChars ((pageA.data ++ title.data) ++ pageB.data) :=
    spanFree_append s1 gB.2
  have s3 : SpanFree hdgChars (((pageA.data ++ title.data) ++ pageB.data) ++ CSS.data) :=
    spanFree_append s2 gCSS.2
  have s4 : SpanFree hdgChars ((((pageA.data ++ title.data) ++ pageB.data) ++ CSS.data) ++
      pageC.data) := spanFree_append s3 gC.2
  have s5 : SpanFree hdgChars (((((pageA.data ++ title.data) ++ pageB.data) ++ CSS.data) ++
      pageC.data) ++ title.data) := spanFree_append s4 ht.2
  have s6 : SpanFree hdgChars ((((((pageA.data ++ title.data) ++ pageB.data) ++ CSS.data) ++
      pageC.data) ++ title.data) ++ pageD.data) := spanFree_append s5 gD.2
  have s7 : SpanFree hdgChars (((((((pageA.data ++ title.data) ++ pageB.data) ++ CSS.data) ++
      pageC.data) ++ title.data) ++ pageD.data) ++ (String.join ing_items).data) :=
    spanFree_append s6 hjoinI.2
  have s8 : SpanFree hdgChars ((((((((pageA.data ++ title.data) ++ pageB.data) ++ CSS.data) ++
      pageC.data) ++ title.data) ++ pageD.data) ++ (String.join ing_items).data) ++
      pageE.data) := spanFree_append s7 gE.2
  have s9 : SpanFree hdgChars (((((((((pageA.data ++ title.data) ++ pageB.data) ++ CSS.data) ++
      pageC.data) ++ title.data) ++ pageD.data) ++ (String.join ing_items).data) ++
      pageE.data) ++ cwsec.data) := spanFree_append s8 hcw
  have s10 : SpanFree hdgChars ((((((((((pageA.data ++ title.data) ++ pageB.data) ++ CSS.data) ++
      pageC.data) ++ title.data) ++ pageD.data) ++ (String.join ing_items).data) ++
      pageE.data) ++ cwsec.data) ++ pageF.data) := spanFree_append s9 gF.2
  have s11 : SpanFree hdgChars (((((((((((pageA.data ++ title.data) ++ pageB.data) ++ CSS.data) ++
      pageC.data) ++ title.data) ++ pageD.data) ++ (String.join ing_items).data) ++
      pageE.data) ++ cwsec.data) ++ pageF.data) ++ (String.join step_items).data) :=
    spanFree_append s10 hjoinS.2
  show occs hdgChars ((((((((((((pageA.data ++ title.data) ++ pageB.data) ++ CSS.data) ++
      pageC.data) ++ title.data) ++ pageD.data) ++ (String.join ing_items).data) ++
      pageE.data) ++ cwsec.data) ++ pageF.data) ++ (String.join step_items).data) ++
      pageG.data) = occs hdgChars cwsec.data
  rw [occs_append hdgChars_ne_nil s11, occs_append hdgChars_ne_nil s10,
    occs_append hdgChars_ne_nil s9, occs_append hdgChars_ne_nil s8,
    occs_append hdgChars_ne_nil s7, occs_append hdgChars_ne_nil s6,
    occs_append hdgChars_ne_nil s5, occs_append hdgChars_ne_nil s4,
    occs_append hdgChars_ne_nil s3, occs_append hdgChars_ne_nil s2,
    occs_append hdgChars_ne_nil s1, occs_append hdgChars_ne_nil gA.2]
  rw [gA.1, ht.1, gB.1, gCSS.1, gC.1, gD.1, gE.1, gF.1, gG.1, hjoinI.1, hjoinS.1]
  omega

theorem cookwareSection_empty : cookwareSection [] = "" := rfl

theorem cookwareSection_occs {cw_items : List String} (hne : cw_items ≠ [])
    (hgood : ∀ s ∈ cw_items, Good s.data) :
    occs hdgChars (cookwareSection cw_items).data = 1 ∧
      SpanFree hdgChars (cookwareSection cw_items).data := by
  have hH1 : occs hdgChars ("<h2>Cookware</h2>\n<ul>\n" : String).data = 1 := by decide
  have hHs : SpanFree hdgChars ("<h2>Cookware</h2>\n<ul>\n" : String).data :=
    spanFree_of_spanFreeB (by decide)
  have hJ : Good (String.join cw_items).data := good_join hgood
  have hEnd : Good ("\n</ul>" : String).data := good_of_goodB (by decide)
  rw [cookwareSection, if_neg (by simpa [List.isEmpty_iff] using hne)]
  constructor
  · show occs hdgChars ((("<h2>Cookware</h2>\n<ul>\n" : String).data ++
      (String.join cw_items).data) ++ ("\n</ul>" : String).data) = 1
    rw [occs_append hdgChars_ne_nil (spanFree_append hHs hJ.2),
      occs_append hdgChars_ne_nil hHs, hH1, hJ.1, hEnd.1]
  · show SpanFree hdgChars ((("<h2>Cookware</h2>\n<ul>\n" : String).data ++
      (String.join cw_items).data) ++ ("\n</ul>" : String).data)
    exact spanFree_append (spanFree_append hHs hJ.2) hEnd.2

theorem generate_recipe_html_some {fallback : String} {doc : RecipeDocument} {page : String}
    (h : generate_recipe_html fallback doc = some page) :
    ∃ step_items,
      buildStepItems doc.ingredients doc.cookware doc.timers doc.sections = some step_items ∧
      page = pageHtml (doc.title.getD fallback) (doc.ingredients.map ingredientListItem)
        (cookwareSection (doc.cookware.map cookwareListItem)) step_items := by
  rw [generate_recipe_html] at h
  cases hb : buildStepItems doc.ingredients doc.cookware doc.timers doc.sections with
  | none => rw [hb] at h; cases h
  | some items =>
    rw [hb] at h
    have h2 : some (pageHtml (doc.title.getD fallback) (doc.ingredients.map ingredientListItem)
      (cookwareSection (doc.cookware.map cookwareListItem)) items) = some page := h
    injection h2 with h3
    exact ⟨items, rfl, h3.symm⟩

theorem docLtFreeB_parts {fallback : String} {doc : RecipeDocument}
    (h : docLtFreeB fallback doc = true) :
    ltFreeB (doc.title.getD fallback) = true ∧
    (∀ ing ∈ doc.ingredients, ingLtFreeB ing = true) ∧
    (∀ cw ∈ doc.cookware, ltFreeB cw.name = true) ∧
    (∀ tm ∈ doc.timers, qtyLtFreeB tm.quantity = true) ∧
    (∀ sec ∈ doc.sections, ∀ c ∈ sec.content, contentLtFreeB c = true) := by
  simp only [docLtFreeB, Bool.and_eq_true, List.all_eq_true] at h
  obtain ⟨⟨⟨⟨h1, h2⟩, h3⟩, h4⟩, h5⟩ := h
  exact ⟨h1, h2, h3, h4, h5⟩

/-! ## Digit-character lemmas (for the number formatter) -/

theorem natToDigitsAux_chars :
    ∀ (fuel n : Nat) (c : Char), c ∈ natToDigitsAux fuel n →
      ∃ k, k < 10 ∧ c = Nat.digitChar k := by
  intro fuel
  induction fuel with
  | zero =>
    intro n c h
    cases h
  | succ fuel ih =>
    intro n c h
    rw [natToDigitsAux] at h
    by_cases h10 : n < 10
    · rw [if_pos h10] at h
      rw [List.mem_singleton] at h
      exact ⟨n, h10, h⟩
    · rw [if_neg h10] at h
      rcases List.mem_append.1 h with h2 | h2
      · exact ih _ c h2
      · rw [List.mem_singleton] at h2
        exact ⟨n % 10, Nat.mod_lt n (by omega), h2⟩

theorem digitChar_ne_dot {k : Nat} (hk : k < 10) : Nat.digitChar k ≠ '.' := by
  interval_cases k <;> decide

theorem dot_not_mem_pyStrInt (i : Int) : '.' ∉ (pyStrInt i).data := by
  intro h
  have h2 : '.' ∈ (if i < 0 then ['-'] else []) ++ natToDigits i.natAbs := h
  rcases List.mem_append.1 h2 with h3 | h3
  · by_cases hi : i < 0
    · rw [if_pos hi, List.mem_singleton] at h3
      exact absurd h3 (by decide)
    · rw [if_neg hi] at h3
      cases h3
  · rw [natToDigits] at h3
    rcases natToDigitsAux_chars _ _ _ h3 with ⟨k, hk, he⟩
    exact digitChar_ne_dot hk he.symm

/-! ## Unfolding equations for the rendered fragments -/

theorem ingredientFragment_eq (ing : Ingredient) :
    ingredientFragment ing = "<span class=\"ingredient\">" ++ ing.name ++
      (if get_quantity_str ing.quantity = "" then "" else
        " (" ++ get_quantity_str ing.quantity ++
          (if getUnit ing.quantity = "" then "" else " " ++ getUnit ing.quantity) ++ ")") ++
      "</span>" := rfl

theorem timerFragment_eq (tm : Timer) :
    timerFragment tm = "<span class=\"timer\">" ++ get_quantity_str tm.quantity ++ " " ++
      getUnit tm.quantity ++ "</span>" := rfl

theorem ingredientListItem_eq (ing : Ingredient) :
    ingredientListItem ing = "<li>" ++ ing.name ++
      (if get_quantity_str ing.quantity = "" then "" else
        ": " ++ get_quantity_str ing.quantity ++
          (if getUnit ing.quantity = "" then "" else " " ++ getUnit ing.quantity)) ++
      "</li>" := rfl

end Recipes

namespace Recipes

/-! ## Claim theorems -/

/-- C1, as stated, is false on the code: the `qty_str` f-string is
`" ({qty}…)"`, so inside the ingredient span exactly one space separates
the name from the opening parenthesis.  For the concrete ingredient
`flour`/`"2"`/`"cups"`, the rendered fragment equals the version with a
space and differs from the claimed version with no space between the name
and `(`. -/
theorem claim1_counterexample :
    render_step ⟨[StepItem.ingredientRef 0]⟩ [flourIng] [] [] =
      some "<span class=\"ingredient\">flour (2 cups)</span>" ∧
    render_step ⟨[StepItem.ingredientRef 0]⟩ [flourIng] [] [] ≠
      some "<span class=\"ingredient\">flour(2 cups)</span>" :=
  ⟨by decide, by decide⟩

/-- C1 (amended): for every ingredient step item whose referenced
ingredient has a non-empty formatted quantity, the parenthesized
quantity-and-unit suffix follows the ingredient name separated by exactly
one space character before the opening parenthesis, inside the span tagged
"ingredient". -/
theorem claim1_space_before_paren :
    ∀ (ings : List Ingredient) (cw : List Cookware) (tms : List Timer) (i : Int)
      (ing : Ingredient),
      pyIndex ings i = some ing → get_quantity_str ing.quantity ≠ "" →
      render_step ⟨[StepItem.ingredientRef i]⟩ ings cw tms =
        some ("<span class=\"ingredient\">" ++ ing.name ++ " (" ++
          get_quantity_str ing.quantity ++
          (if getUnit ing.quantity = "" then "" else " " ++ getUnit ing.quantity) ++
          ")" ++ "</span>") := by
  intro ings cw tms i ing hpi hq
  rw [render_step_ingredientRef, hpi]
  show some (ingredientFragment ing) = _
  refine congrArg some ?_
  rw [ingredientFragment_eq, if_neg hq]
  apply String.ext
  simp only [String.data_append, List.append_assoc]

/-- Witness for C1 (amended) at the concrete `flour` ingredient. -/
theorem claim1_witness :
    render_step ⟨[StepItem.ingredientRef 0]⟩ [flourIng] [] [] =
      some ("<span class=\"ingredient\">" ++ "flour" ++ " (" ++ "2" ++
        (if ("cups" : String) = "" then "" else " " ++ "cups") ++ ")" ++ "</span>") :=
  claim1_space_before_paren [flourIng] [] [] 0 flourIng (by decide) (by decide)

/-- C2: the concrete `flour`/`"2"`/`"cups"` ingredient renders inside a
step as exactly `<span class="ingredient">flour (2 cups)</span>`; and for
every referenced ingredient whose formatted quantity is empty the fragment
is exactly the name inside the span — the suffix is omitted entirely, and
the trailing `</span>` contains no parenthesis characters. -/
theorem claim2_ingredient_inline :
    render_step ⟨[StepItem.ingredientRef 0]⟩ [flourIng] [] [] =
      some "<span class=\"ingredient\">flour (2 cups)</span>" ∧
    (∀ (ings : List Ingredient) (cw : List Cookware) (tms : List Timer) (i : Int)
      (ing : Ingredient),
      pyIndex ings i = some ing → get_quantity_str ing.quantity = "" →
      render_step ⟨[StepItem.ingredientRef i]⟩ ings cw tms =
        some ("<span class=\"ingredient\">" ++ ing.name ++ "</span>")) ∧
    (∀ c ∈ ("</span>" : String).data, c ≠ '(' ∧ c ≠ ')') := by
  refine ⟨by decide, ?_, by decide⟩
  intro ings cw tms i ing hpi hq
  rw [render_step_ingredientRef, hpi]
  show some (ingredientFragment ing) = _
  refine congrArg some ?_
  rw [ingredientFragment_eq, if_pos hq, String.append_empty]

/-- Witness for C2 at an ingredient with no quantity. -/
theorem claim2_witness :
    render_step ⟨[StepItem.ingredientRef 0]⟩ [saltIng] [] [] =
      some ("<span class=\"ingredient\">" ++ "salt" ++ "</span>") :=
  claim2_ingredient_inline.2.1 [saltIng] [] [] 0 saltIng (by decide) (by decide)

/-- C3: a decimal (float) payload whose fractional part is zero is
formatted as the plain integer string — no decimal point appears — both
for a bare numeric payload and for one wrapped one level deep in a
`value` container; a payload with non-zero fractional part keeps its
natural decimal representation (2.0 → "2", 2.5 → "2.5"). -/
theorem claim3_number_formatting :
    (∀ (m : Int) (e : Nat) (u : Option String), (10 : Int) ^ e ∣ m →
      get_quantity_str (numQty (.raw (.float m e)) u) = pyStrInt (m / (10 : Int) ^ e) ∧
      get_quantity_str (numQty (.wrapped (.float m e)) u) = pyStrInt (m / (10 : Int) ^ e) ∧
      '.' ∉ (get_quantity_str (numQty (.raw (.float m e)) u)).data ∧
      '.' ∉ (get_quantity_str (numQty (.wrapped (.float m e)) u)).data) ∧
    get_quantity_str (numQty (.raw (.float 20 1)) none) = "2" ∧
    get_quantity_str (numQty (.wrapped (.float 20 1)) none) = "2" ∧
    get_quantity_str (numQty (.raw (.float 25 1)) none) = "2.5" ∧
    get_quantity_str (numQty (.wrapped (.float 25 1)) none) = "2.5" := by
  refine ⟨?_, by decide, by decide, by decide, by decide⟩
  intro m e u hdvd
  have hmod : m % (10 : Int) ^ e = 0 := Int.emod_eq_zero_of_dvd hdvd
  have heq : get_quantity_str (numQty (.raw (.float m e)) u) = pyStrFloat m e := rfl
  have heq2 : get_quantity_str (numQty (.wrapped (.float m e)) u) = pyStrFloat m e := rfl
  rw [heq, heq2, pyStrFloat, if_pos hmod]
  exact ⟨rfl, rfl, dot_not_mem_pyStrInt _, dot_not_mem_pyStrInt _⟩

/-- Witness for C3 at the payload 2.0 (`m = 20`, `e = 1`). -/
theorem claim3_witness :
    get_quantity_str (numQty (.raw (.float 20 1)) none) = pyStrInt (20 / (10 : Int) ^ 1) ∧
    get_quantity_str (numQty (.wrapped (.float 20 1)) none) = pyStrInt (20 / (10 : Int) ^ 1) ∧
    '.' ∉ (get_quantity_str (numQty (.raw (.float 20 1)) none)).data ∧
    '.' ∉ (get_quantity_str (numQty (.wrapped (.float 20 1)) none)).data :=
  claim3_number_formatting.1 20 1 none ⟨2, by decide⟩

/-- C4: a step item referencing an ingredient/cookware/timer at an index
`≥` the length of the corresponding list makes `render_step` fail with a
lookup error (`none`, no partial fragment), and the whole recipe page
render produces no output. -/
theorem claim4_out_of_range :
    ∀ (fallback : String) (doc : RecipeDocument) (sec : RSection) (st : Step)
      (item : StepItem),
      sec ∈ doc.sections → Content.step st ∈ sec.content → item ∈ st.items →
      outOfRange doc item →
      render_step st doc.ingredients doc.cookware doc.timers = none ∧
      generate_recipe_html fallback doc = none := by
  intro fallback doc sec st item hsec hst hitem hoor
  have hrs : render_step st doc.ingredients doc.cookware doc.timers = none :=
    render_step_none_of_outOfRange hitem hoor
  refine ⟨hrs, ?_⟩
  rw [generate_recipe_html]
  have hb : buildStepItems doc.ingredients doc.cookware doc.timers doc.sections = none := by
    rw [buildStepItems_eq]
    apply optionMapM_none (mem_collectSteps hsec hst)
    rw [renderStepLi, hrs]
    rfl
  rw [hb]
  rfl

/-- Witness for C4: one ingredient, a step referencing index 5. -/
theorem claim4_witness :
    render_step ⟨[StepItem.ingredientRef 5]⟩ [saltIng] [] [] = none ∧
    generate_recipe_html "r" badDoc = none :=
  claim4_out_of_range "r" badDoc ⟨[.step ⟨[.ingredientRef 5]⟩]⟩ ⟨[.ingredientRef 5]⟩
    (StepItem.ingredientRef 5) (by decide) (by decide) (by decide)
    (by decide : ((badDoc.ingredients.length : Int) ≤ 5))

/-- C7: a timer step item renders as the formatted quantity and the unit
separated by exactly one literal space inside the span tagged "timer"; in
particular, when the quantity formats to the empty string the span content
still begins with a lone space followed by the unit. -/
theorem claim7_timer_fragment :
    (∀ (ings : List Ingredient) (cw : List Cookware) (tms : List Timer) (i : Int)
      (tm : Timer),
      pyIndex tms i = some tm →
      render_step ⟨[StepItem.timerRef i]⟩ ings cw tms =
        some ("<span class=\"timer\">" ++ get_quantity_str tm.quantity ++ " " ++
          getUnit tm.quantity ++ "</span>")) ∧
    (∀ (ings : List Ingredient) (cw : List Cookware) (tms : List Timer) (i : Int)
      (tm : Timer),
      pyIndex tms i = some tm → get_quantity_str tm.quantity = "" →
      render_step ⟨[StepItem.timerRef i]⟩ ings cw tms =
        some ("<span class=\"timer\">" ++ " " ++ getUnit tm.quantity ++ "</span>")) := by
  constructor
  · intro ings cw tms i tm hpi
    rw [render_step_timerRef, hpi]
    show some (timerFragment tm) = _
    exact congrArg some (timerFragment_eq tm)
  · intro ings cw tms i tm hpi hq
    rw [render_step_timerRef, hpi]
    show some (timerFragment tm) = _
    refine congrArg some ?_
    rw [timerFragment_eq, hq, String.append_empty]

/-- Witness for C7 at a timer with no quantity (and hence empty unit). -/
theorem claim7_witness :
    render_step ⟨[StepItem.timerRef 0]⟩ [] [] [⟨none⟩] =
      some ("<span class=\"timer\">" ++ " " ++ "" ++ "</span>") :=
  claim7_timer_fragment.2 [] [] [⟨none⟩] 0 ⟨none⟩ (by decide) (by decide)

/-- C8: an ingredient whose quantity formats to the empty string gets the
list entry `<li>{name}</li>`, with no colon and no parentheses; a
non-empty quantity gets `": " + qty` and, only for a non-empty unit, one
space and the unit; and the page contains the joined ingredient entries. -/
theorem claim8_ingredient_entries :
    (∀ ing : Ingredient, get_quantity_str ing.quantity = "" →
      ingredientListItem ing = "<li>" ++ ing.name ++ "</li>") ∧
    (∀ ing : Ingredient, get_quantity_str ing.quantity ≠ "" →
      ingredientListItem ing = "<li>" ++ ing.name ++ ": " ++
        get_quantity_str ing.quantity ++
        (if getUnit ing.quantity = "" then "" else " " ++ getUnit ing.quantity) ++
        "</li>") ∧
    (∀ (fallback : String) (doc : RecipeDocument) (page : String),
      generate_recipe_html fallback doc = some page →
      ∃ A B, page = A ++ String.join (doc.ingredients.map ingredientListItem) ++ B) := by
  refine ⟨?_, ?_, ?_⟩
  · intro ing hq
    rw [ingredientListItem_eq, if_pos hq, String.append_empty]
  · intro ing hq
    rw [ingredientListItem_eq, if_neg hq]
    apply String.ext
    simp only [String.data_append, List.append_assoc]
  · intro fallback doc page hgen
    obtain ⟨step_items, hbuild, hpage⟩ := generate_recipe_html_some hgen
    subst hpage
    refine ⟨pageA ++ (doc.title.getD fallback) ++ pageB ++ CSS ++ pageC ++
      (doc.title.getD fallback) ++ pageD,
      pageE ++ cookwareSection (doc.cookware.map cookwareListItem) ++ pageF ++
        String.join step_items ++ pageG, ?_⟩
    rw [pageHtml]
    apply String.ext
    simp only [String.data_append, List.append_assoc]

/-- Witness for C8: an ingredient with no quantity, and the page split for
a concrete document. -/
theorem claim8_witness :
    ingredientListItem saltIng = "<li>" ++ "salt" ++ "</li>" ∧
    ∃ A B, (generate_recipe_html "r" cwDoc).getD "" =
      A ++ String.join (cwDoc.ingredients.map ingredientListItem) ++ B :=
  ⟨claim8_ingredient_entries.1 saltIng (by decide),
   claim8_ingredient_entries.2.2 "r" cwDoc ((generate_recipe_html "r" cwDoc).getD "")
     (by decide)⟩

/-- C9: the index page is the fixed frame around the joined per-recipe
links in input order — link text is the title, link target the filename —
and for the concrete pairs [("Soup","soup.html"), ("Bread","bread.html")]
the Soup item precedes the Bread item (no alphabetical sorting). -/
theorem claim9_index_order :
    (∀ recipes : List (String × String),
      generate_index recipes = indexA ++ CSS ++ indexB ++
        String.join (recipes.map indexLink) ++ indexC) ∧
    (∀ title html : String,
      indexLink (title, html) = "<li><a href=\"" ++ html ++ "\">" ++ title ++ "</a></li>") ∧
    String.join ([("Soup", "soup.html"), ("Bread", "bread.html")].map indexLink) =
      "<li><a href=\"soup.html\">Soup</a></li>" ++ "<li><a href=\"bread.html\">Bread</a></li>" ∧
    generate_index [("Soup", "soup.html"), ("Bread", "bread.html")] =
      indexA ++ CSS ++ indexB ++
        ("<li><a href=\"soup.html\">Soup</a></li>" ++
          "<li><a href=\"bread.html\">Bread</a></li>") ++ indexC := by
  refine ⟨fun recipes => rfl, fun title html => rfl, by decide, ?_⟩
  apply String.ext
  decide

/-- C10 (implicit in the code): a negative reference index `-k` with
`1 ≤ k ≤ length` is accepted by Python list indexing: step rendering
succeeds and renders the element at position `length - k`. -/
theorem claim10_negative_index :
    ∀ (ings : List Ingredient) (cw : List Cookware) (tms : List Timer) (k : Nat),
      1 ≤ k →
      (k ≤ ings.length →
        ∃ ing, ings[ings.length - k]? = some ing ∧
          render_step ⟨[StepItem.ingredientRef (-(k : Int))]⟩ ings cw tms =
            some (ingredientFragment ing)) ∧
      (k ≤ cw.length →
        ∃ c, cw[cw.length - k]? = some c ∧
          render_step ⟨[StepItem.cookwareRef (-(k : Int))]⟩ ings cw tms =
            some (cookwareFragment c)) ∧
      (k ≤ tms.length →
        ∃ tm, tms[tms.length - k]? = some tm ∧
          render_step ⟨[StepItem.timerRef (-(k : Int))]⟩ ings cw tms =
            some (timerFragment tm)) := by
  intro ings cw tms k hk1
  refine ⟨?_, ?_, ?_⟩
  · intro hk2
    have hlt : ings.length - k < ings.length := by omega
    refine ⟨ings[ings.length - k], List.getElem?_eq_getElem hlt, ?_⟩
    rw [render_step_ingredientRef, pyIndex_neg hk1 hk2, List.getElem?_eq_getElem hlt]
    rfl
  · intro hk2
    have hlt : cw.length - k < cw.length := by omega
    refine ⟨cw[cw.length - k], List.getElem?_eq_getElem hlt, ?_⟩
    rw [render_step_cookwareRef, pyIndex_neg hk1 hk2, List.getElem?_eq_getElem hlt]
    rfl
  · intro hk2
    have hlt : tms.length - k < tms.length := by omega
    refine ⟨tms[tms.length - k], List.getElem?_eq_getElem hlt, ?_⟩
    rw [render_step_timerRef, pyIndex_neg hk1 hk2, List.getElem?_eq_getElem hlt]
    rfl

/-- Witness for C10 with `k = 1` on two-element, one-element lists. -/
theorem claim10_witness :
    (∃ ing, ([⟨"a", none⟩, ⟨"b", none⟩] : List Ingredient)[1]? = some ing ∧
      render_step ⟨[StepItem.ingredientRef (-(1 : Int))]⟩
        [⟨"a", none⟩, ⟨"b", none⟩] [⟨"pan"⟩] [⟨none⟩] = some (ingredientFragment ing)) ∧
    (∃ c, ([⟨"pan"⟩] : List Cookware)[0]? = some c ∧
      render_step ⟨[StepItem.cookwareRef (-(1 : Int))]⟩
        [⟨"a", none⟩, ⟨"b", none⟩] [⟨"pan"⟩] [⟨none⟩] = some (cookwareFragment c)) ∧
    (∃ tm, ([⟨none⟩] : List Timer)[0]? = some tm ∧
      render_step ⟨[StepItem.timerRef (-(1 : Int))]⟩
        [⟨"a", none⟩, ⟨"b", none⟩] [⟨"pan"⟩] [⟨none⟩] = some (timerFragment tm)) := by
  have h := claim10_negative_index [⟨"a", none⟩, ⟨"b", none⟩] [⟨"pan"⟩] [⟨none⟩] 1
    (by decide)
  exact ⟨h.1 (by decide), h.2.1 (by decide), h.2.2 (by decide)⟩

/-- C5: under the benign-content assumption (`docLtFreeB`, no `'<'` in any
document-supplied string), a successfully rendered page contains the
`<h2>Cookware</h2>` heading exactly once when the cookware list is
non-empty — followed by an unordered list whose items are exactly the `n`
cookware entries — and contains no occurrence of the heading at all when
the cookware list is empty. -/
theorem claim5_cookware_heading :
    ∀ (fallback : String) (doc : RecipeDocument) (page : String),
      generate_recipe_html fallback doc = some page →
      docLtFreeB fallback doc = true →
      (doc.cookware = [] → occsS "<h2>Cookware</h2>" page = 0) ∧
      (doc.cookware ≠ [] →
        occsS "<h2>Cookware</h2>" page = 1 ∧
        (∃ A B, page = A ++ "<h2>Cookware</h2>\n<ul>\n" ++
          String.join (doc.cookware.map cookwareListItem) ++ "\n</ul>" ++ B) ∧
        (doc.cookware.map cookwareListItem).length = doc.cookware.length) := by
  intro fallback doc page hgen hfree
  obtain ⟨h1, h2, h3, h4, h5⟩ := docLtFreeB_parts hfree
  obtain ⟨step_items, hbuild, hpage⟩ := generate_recipe_html_some hgen
  have htitle : Good (doc.title.getD fallback).data := good_of_ltFreeB h1
  have hii : ∀ s ∈ doc.ingredients.map ingredientListItem, Good s.data := by
    intro s hs
    rcases List.mem_map.1 hs with ⟨ing, hing, rfl⟩
    exact good_ingredientListItem (h2 ing hing)
  have hsi : ∀ s ∈ step_items, Good s.data := buildStepItems_good h2 h3 h4 h5 hbuild
  have hcwgood : ∀ s ∈ doc.cookware.map cookwareListItem, Good s.data := by
    intro s hs
    rcases List.mem_map.1 hs with ⟨c, hc, rfl⟩
    exact good_cookwareListItem (h3 c hc)
  constructor
  · intro hempty
    subst hpage
    have hcw0 : cookwareSection (doc.cookware.map cookwareListItem) = "" := by
      rw [hempty]
      rfl
    have hsf : SpanFree hdgChars (cookwareSection (doc.cookware.map cookwareListItem)).data := by
      rw [hcw0]
      exact spanFree_nil _
    rw [occs_pageHtml htitle hii hsi hsf, hcw0]
    exact occs_nil hdgChars_ne_nil
  · intro hne
    have hne2 : doc.cookware.map cookwareListItem ≠ [] := by
      intro h0
      exact hne (List.map_eq_nil_iff.1 h0)
    obtain ⟨hocc1, hspan⟩ := cookwareSection_occs hne2 hcwgood
    subst hpage
    refine ⟨?_, ?_, List.length_map _ _⟩
    · rw [occs_pageHtml htitle hii hsi hspan, hocc1]
    · refine ⟨pageA ++ (doc.title.getD fallback) ++ pageB ++ CSS ++ pageC ++
        (doc.title.getD fallback) ++ pageD ++
        String.join (doc.ingredients.map ingredientListItem) ++ pageE,
        pageF ++ String.join step_items ++ pageG, ?_⟩
      rw [pageHtml, cookwareSection, if_neg (by simpa [List.isEmpty_iff] using hne2)]
      apply String.ext
      simp only [String.data_append, List.append_assoc]

/-- Witness for C5: a document with one cookware entry yields exactly one
heading occurrence; a document with none yields zero occurrences. -/
theorem claim5_witness :
    occsS "<h2>Cookware</h2>" ((generate_recipe_html "r" cwDoc).getD "") = 1 ∧
    occsS "<h2>Cookware</h2>" ((generate_recipe_html "r" cwDocEmpty).getD "") = 0 :=
  ⟨((claim5_cookware_heading "r" cwDoc ((generate_recipe_html "r" cwDoc).getD "")
      (by decide) (by decide)).2 (by decide)).1,
   (claim5_cookware_heading "r" cwDocEmpty ((generate_recipe_html "r" cwDocEmpty).getD "")
      (by decide) (by decide)).1 rfl⟩

/-- C6: the rendered steps list is exactly one `<li>` per step content
entry, collected by scanning all sections' content entries in document
order and skipping non-step entries (`buildStepItems` equals the mapped
render over `collectSteps`); for the concrete sections `[S1 = [step A,
step B], S2 = [other, step C]]` the rendered list is `[A, B, C]` in that
order; and a successful page contains the joined step items between the
`<ol>` tags. -/
theorem claim6_steps_order :
    (∀ (ings : List Ingredient) (cw : List Cookware) (tms : List Timer)
      (sections : List RSection),
      buildStepItems ings cw tms sections =
        optionMapM (renderStepLi ings cw tms) (collectSteps sections)) ∧
    buildStepItems [] [] []
      [⟨[.step ⟨[.text "A"]⟩, .step ⟨[.text "B"]⟩]⟩, ⟨[.other, .step ⟨[.text "C"]⟩]⟩] =
      some ["<li>A</li>", "<li>B</li>", "<li>C</li>"] ∧
    (∀ (fallback : String) (doc : RecipeDocument) (page : String),
      generate_recipe_html fallback doc = some page →
      ∃ step_items,
        buildStepItems doc.ingredients doc.cookware doc.timers doc.sections =
          some step_items ∧
        ∃ A B, page = A ++ String.join step_items ++ B) := by
  refine ⟨buildStepItems_eq, by decide, ?_⟩
  intro fallback doc page hgen
  obtain ⟨step_items, hbuild, hpage⟩ := generate_recipe_html_some hgen
  subst hpage
  refine ⟨step_items, hbuild,
    pageA ++ (doc.title.getD fallback) ++ pageB ++ CSS ++ pageC ++
      (doc.title.getD fallback) ++ pageD ++
      String.join (doc.ingredients.map ingredientListItem) ++ pageE ++
      cookwareSection (doc.cookware.map cookwareListItem) ++ pageF,
    pageG, ?_⟩
  rw [pageHtml]

/-- Witness for C6's page-decomposition conjunct at a concrete document. -/
theorem claim6_witness :
    ∃ step_items,
      buildStepItems cwDoc.ingredients cwDoc.cookware cwDoc.timers cwDoc.sections =
        some step_items ∧
      ∃ A B, (generate_recipe_html "r" cwDoc).getD "" =
        A ++ String.join step_items ++ B :=
  claim6_steps_order.2.2 "r" cwDoc ((generate_recipe_html "r" cwDoc).getD "") (by decide)

example : get_quantity_str (some ⟨some (.text "2"), some "cups"⟩) = "2" := by decide

example : get_quantity_str (some ⟨some (.number (.raw (.float 20 1))), none⟩) = "2" := by decide

example : get_quantity_str (some ⟨some (.number (.wrapped (.float 25 1))), none⟩) = "2.5" := by decide

example :
    render_step ⟨[.ingredientRef 0]⟩ [⟨"flour", some ⟨some (.text "2"), some "cups"⟩⟩] [] [] =
      some "<span class=\"ingredient\">flour (2 cups)</span>" := by decide

example : render_step ⟨[.ingredientRef 1]⟩ [⟨"flour", none⟩] [] [] = none := by decide

example : render_step ⟨[.ingredientRef (-1)]⟩ [⟨"flour", none⟩] [] [] =
    some "<span class=\"ingredient\">flour</span>" := by decide

example : timerFragment ⟨none⟩ = "<span class=\"timer\"> </span>" := by decide

end Recipes
